import Mathlib

/-!
Verification development for the efin-proxy repository (an intercepting
HTTP/HTTPS proxy written in Go).  The definitions below are a shallow
embedding of the Go source:

* `internal/scope/scope.go`       — the scoping predicate,
* `internal/websockets/websockets.go` — WebSocket upgrade detection,
* `internal/proxy/proxy.go`       — message model, body wrappers, cloning,
  the HTTP handler and the CONNECT tunnel loop, certificate caching,
* `internal/proxy/pipeline.go` and `internal/pipeline/pipeline.go`
  — the mutation and read-only pipeline engines,
* `internal/grpc/convert.go`      — proto conversion and the plugin stage hooks,
* the `hooks` raw serializer (`RawRequestBytes`) and `certs.GenerateCert`.

Go byte strings are modelled as Lean `String` (one `Char` per byte; all data
relevant to the claims is ASCII).  Go's `strings.ToLower` is modelled on its
ASCII fragment.  Concurrency primitives are modelled by their synchronous
observable effect: a buffered channel becomes an explicit bounded queue, a
mutex-protected map becomes an association list, and goroutine effects that no
claim observes (logging, timed channel closes) are dropped.
-/

set_option autoImplicit false

namespace EfinProxy

/-! ## ASCII case folding (model of `strings.ToLower` / `ToUpper` on ASCII) -/

/-- Lowercase a single ASCII character; other characters are unchanged.
Models the ASCII fragment of Go `unicode.ToLower`. -/
def asciiLowerChar (c : Char) : Char :=
  if 65 ≤ c.toNat ∧ c.toNat ≤ 90 then Char.ofNat (c.toNat + 32) else c

/-- Uppercase a single ASCII character; other characters are unchanged. -/
def asciiUpperChar (c : Char) : Char :=
  if 97 ≤ c.toNat ∧ c.toNat ≤ 122 then Char.ofNat (c.toNat - 32) else c

/-- ASCII-lowercase a string, character by character. Models `strings.ToLower`
on ASCII input. -/
def asciiLower (s : String) : String := ⟨s.data.map asciiLowerChar⟩

/-- Does the character list `hay` start with the character list `needle`? -/
def listStarts : List Char → List Char → Bool
  | [], _ => true
  | _ :: _, [] => false
  | a :: as, b :: bs => a == b && listStarts as bs

/-- Does `hay` contain `needle` as a contiguous substring?  Models Go
`strings.Contains hay needle`. -/
def listHasSub (hay needle : List Char) : Bool :=
  match hay with
  | [] => needle == []
  | _ :: t => listStarts needle hay || listHasSub t needle

/-- String wrapper for `listHasSub`: Go `strings.Contains s substr`. -/
def strContains (s substr : String) : Bool := listHasSub s.data substr.data

/-! ## Headers (model of Go `http.Header`, a map from canonical keys to
value lists; modelled as an association list in iteration order) -/

/-- One header entry: canonical-cased name and its ordered values. -/
abbrev Headers := List (String × List String)

/-- Canonical MIME header casing: each letter that starts the key or follows
a hyphen is uppercased, every other letter is lowercased.  Models Go
`textproto.CanonicalMIMEHeaderKey` on valid token keys (every header name
appearing in this development is a valid token; the Go passthrough for keys
containing invalid bytes is not modelled). -/
def canonAux : Bool → List Char → List Char
  | _, [] => []
  | up, c :: cs => (if up then asciiUpperChar c else asciiLowerChar c) :: canonAux (c == '-') cs

/-- Canonical MIME header key (see `canonAux`). -/
def canonicalKey (s : String) : String := ⟨canonAux true s.data⟩

/-- Look up the value list stored under exactly the key `key`. -/
def hLookup : Headers → String → Option (List String)
  | [], _ => none
  | (k, vs) :: rest, key => if k == key then some vs else hLookup rest key

/-- Go `http.Header.Get`: canonicalize the key and return the first stored
value, or the empty string. -/
def hGet (h : Headers) (key : String) : String :=
  match hLookup h (canonicalKey key) with
  | some (v :: _) => v
  | _ => ""

/-- Replace (or append) the entry for a key with a single value, keeping the
other entries.  Models Go `http.Header.Set` (map keys are unique). -/
def hSetAux (h : Headers) (ck v : String) : Headers :=
  match h with
  | [] => [(ck, [v])]
  | (k, vs) :: rest => if k == ck then (ck, [v]) :: rest else (k, vs) :: hSetAux rest ck v

/-- Go `http.Header.Set`: canonicalize, then replace-or-append. -/
def hSet (h : Headers) (key v : String) : Headers := hSetAux h (canonicalKey key) v

/-! ## Bodies (model of the `io.ReadCloser` field and `proxy.BodyWrapper`) -/

/-- The body handle of a message.

* `nilBody`  — a Go `nil` body;
* `wrapper`  — a `*proxy.BodyWrapper`: a shared byte buffer plus a cursor
  (`data`, `pos`), `internal/proxy/proxy.go` lines 505–543;
* `stream`   — any other `io.ReadCloser`, identified only by the bytes still
  readable from its current position. -/
inductive Body where
  | nilBody : Body
  | wrapper (data : String) (pos : Nat) : Body
  | stream (data : String) : Body
deriving DecidableEq, Repr

/-- `NewBodyWrapper`: a wrapper over `data` with its cursor at zero. -/
def NewBodyWrapper (data : String) : Body := Body.wrapper data 0

/-- `BodyWrapper.ShallowClone`: same bytes, fresh cursor at zero.
Defined on wrappers; other handles are returned unchanged (unreachable in the
translated code paths). -/
def shallowClone : Body → Body
  | Body.wrapper d _ => Body.wrapper d 0
  | b => b

/-- `BodyWrapper.Reset`: seek the cursor back to zero. -/
def resetWrapper : Body → Body
  | Body.wrapper d _ => Body.wrapper d 0
  | b => b

/-- `io.ReadAll` on a body handle: the bytes remaining from the cursor. -/
def readAllBody : Body → String
  | Body.nilBody => ""
  | Body.wrapper d p => ⟨d.data.drop p⟩
  | Body.stream d => d

/-! ## Messages (model of `net/http.Request` / `Response` as the cited code
uses them) -/

/-- The fields of `http.Request` read or written by the translated code.
`host` is `r.Host`; `urlHost`/`urlPath`/`urlQuery` are the `r.URL` fields;
`requestURI` is `r.RequestURI`; `id` is the request identifier carried in the
ambient context. -/
structure Request where
  method : String
  urlHost : String
  urlPath : String
  urlQuery : String
  proto : String
  host : String
  header : Headers
  body : Body
  contentLength : Int
  requestURI : String
  id : String
deriving DecidableEq, Repr

/-- The fields of `http.Response` read or written by the translated code.
`reqId` stands for the identifier reachable through `resp.Request`'s context. -/
structure Response where
  statusCode : Nat
  proto : String
  header : Headers
  body : Body
  reqId : String
deriving DecidableEq, Repr

/-! ## Cloning (`internal/proxy/proxy.go` lines 402–458)

`cloneRequest` mutates its argument when the body is not already a
`BodyWrapper` (the original body is drained and replaced); the translation
therefore returns the pair (updated source, clone). -/

/-- `cloneRequest` (`internal/proxy/proxy.go` 402–429).  Headers are deep
copied (value semantics in the model).  Body cases:
* `nil` body — the clone's body is `nil`, the source is untouched;
* `*BodyWrapper` — the clone receives `ShallowClone` (same bytes, cursor 0),
  the source is untouched;
* any other reader — the source is drained by `io.ReadAll`, its `Body` field
  is replaced by `NewBodyWrapper` over the read bytes, and the clone receives
  a `ShallowClone` of that wrapper. -/
def cloneRequest (req : Request) : Request × Request :=
  match req.body with
  | Body.nilBody => (req, { req with body := Body.nilBody })
  | Body.wrapper d _ => (req, { req with body := Body.wrapper d 0 })
  | Body.stream d => ({ req with body := Body.wrapper d 0 }, { req with body := Body.wrapper d 0 })

/-- `cloneResponse` (`internal/proxy/proxy.go` 432–458); same body discipline
as `cloneRequest`. -/
def cloneResponse (resp : Response) : Response × Response :=
  match resp.body with
  | Body.nilBody => (resp, { resp with body := Body.nilBody })
  | Body.wrapper d _ => (resp, { resp with body := Body.wrapper d 0 })
  | Body.stream d => ({ resp with body := Body.wrapper d 0 }, { resp with body := Body.wrapper d 0 })

/-! ## Scope predicate (`internal/scope/scope.go`)

The compiled host regular expression is abstracted as its matching function
(`Option (String → Bool)`; `none` is a `nil *regexp.Regexp`). -/

/-- Model of `scope.Scope`: the optional compiled domain regex (as a matcher)
and the excluded-extension set (as the list of stored keys). -/
structure ScopeM where
  domainRe : Option (String → Bool)
  excludedExtensions : List String

/-- Go `path.Ext` on the reversed character list: scan from the end of the
path; the extension starts at the first `'.'` seen before any `'/'`. -/
def pathExtRev : List Char → Option (List Char)
  | [] => none
  | c :: rest =>
    if c == '.' then some [c]
    else if c == '/' then none
    else match pathExtRev rest with
         | some ext => some (c :: ext)
         | none => none

/-- Go `path.Ext`: the suffix beginning at the final dot in the final
slash-separated element of `p`; empty when there is no dot. -/
def pathExt (p : String) : String :=
  match pathExtRev p.data.reverse with
  | some extRev => ⟨extRev.reverse⟩
  | none => ""

/-- `scope.New` (`scope.go` 15–26): each configured extension is lowercased
and stored with a leading dot. -/
def ScopeNew (domainRe : Option (String → Bool)) (excludedExtensions : List String) : ScopeM :=
  { domainRe := domainRe
    excludedExtensions := excludedExtensions.map (fun ex => "." ++ asciiLower ex) }

/-- `Scope.isExcludedExtension` (`scope.go` 32–40): lowercase the final
dot-suffix of the URL path; the empty extension is never excluded. -/
def isExcludedExtension (s : ScopeM) (r : Request) : Bool :=
  let ext := asciiLower (pathExt r.urlPath)
  if ext == "" then false else s.excludedExtensions.contains ext

/-- `Scope.isIncludedDomain` (`scope.go` 42–57): a `nil` regex matches
everything; otherwise take `r.Host`, falling back to the `Host` header, and
require a non-empty host that the regex matches.  The host is **not**
lowercased before matching. -/
def isIncludedDomain (s : ScopeM) (r : Request) : Bool :=
  match s.domainRe with
  | none => true
  | some re =>
    let host := if r.host == "" then hGet r.header "host" else r.host
    if host == "" then false else re host

/-- `Scope.IsInScope` (`scope.go` 28–30). -/
def IsInScope (s : ScopeM) (r : Request) : Bool :=
  !isExcludedExtension s r && isIncludedDomain s r

/-! ## WebSocket detection (`internal/websockets/websockets.go` 9–13) -/

/-- `websockets.IsWebSocketRequest`: the lowercased `Upgrade` header equals
`"websocket"` and the lowercased `Connection` header contains the substring
`"upgrade"`. -/
def IsWebSocketRequest (req : Request) : Bool :=
  let upgradeVal := asciiLower (hGet req.header "Upgrade")
  let connectionVal := asciiLower (hGet req.header "Connection")
  upgradeVal == "websocket" && strContains connectionVal "upgrade"

/-! ## Mutation pipeline engine (`internal/proxy/pipeline.go` 124–153 and
the identical `internal/pipeline/pipeline.go` 126–155)

A `ModHook` returns either a (possibly new) message or an error; the model
uses `Except String`.  After each hook the engine resets the body cursor when
the body is a `BodyWrapper` and otherwise clones the message. -/

/-- One mutation hook over requests. -/
abbrev ModHookReq := Request → Except String Request

/-- One mutation hook over responses. -/
abbrev ModHookResp := Response → Except String Response

/-- The per-hook body step of `modPipeline.runPipeline`: reset the cursor of
a `BodyWrapper` body, otherwise replace the item by its clone. -/
def modStepReq (r : Request) : Request :=
  match r.body with
  | Body.wrapper d _ => { r with body := Body.wrapper d 0 }
  | _ => (cloneRequest r).2

/-- Response version of `modStepReq`. -/
def modStepResp (r : Response) : Response :=
  match r.body with
  | Body.wrapper d _ => { r with body := Body.wrapper d 0 }
  | _ => (cloneResponse r).2

/-- `modPipeline.runPipeline` for requests (`internal/proxy/pipeline.go`
124–153): apply the hooks sequentially; on a hook error return the current
item together with the error (no later hook runs); after each successful hook
apply `modStepReq`. -/
def runPipelineModReq : List ModHookReq → Request → Request × Option String
  | [], r => (r, none)
  | fn :: rest, r =>
    match fn r with
    | Except.error e => (r, some e)
    | Except.ok modified => runPipelineModReq rest (modStepReq modified)

/-- `modPipeline.runPipeline` for responses. -/
def runPipelineModResp : List ModHookResp → Response → Response × Option String
  | [], r => (r, none)
  | fn :: rest, r =>
    match fn r with
    | Except.error e => (r, some e)
    | Except.ok modified => runPipelineModResp rest (modStepResp modified)

/-! ## Read-only pipeline engine (`internal/pipeline/pipeline.go` 35–44 and
88–102)

The stage's buffered channel (`make(chan roQueueItem, 1000)`) is modelled as
an explicit queue list; the non-blocking `select`/`default` send succeeds
exactly when the buffer holds fewer than `roQueueCapacity` items. -/

/-- One read-only hook over requests (`nil` error is success). -/
abbrev ReadOnlyHookReq := Request → Option String

/-- One read-only hook over responses. -/
abbrev ReadOnlyHookResp := Response → Option String

/-- The channel capacity chosen in `NewReadOnlyPipeline`
(`make(chan roQueueItem[I], 1000)`, `internal/pipeline/pipeline.go` line 39). -/
def roQueueCapacity : Nat := 1000

/-- A queued item: the message together with the hook snapshot taken at
enqueue time (`roQueueItem`). -/
structure ROQueueItemReq where
  req : Request
  hooks : List ReadOnlyHookReq

/-- `ReadOnlyPipeline.RunPipeline` (`internal/pipeline/pipeline.go` 88–102):
with a non-empty hook snapshot, enqueue the item if the buffer has room and
report `"pipeline queue full"` otherwise; with no hooks, do nothing.  Returns
the new queue contents and the error, if any. -/
def roRunPipeline (hooks : List ReadOnlyHookReq) (queue : List ROQueueItemReq)
    (r : Request) : List ROQueueItemReq × Option String :=
  if hooks.length > 0 then
    if queue.length < roQueueCapacity then (queue ++ [{ req := r, hooks := hooks }], none)
    else (queue, some "pipeline queue full")
  else (queue, none)

/-! ## Proxy engine (`internal/proxy/proxy.go`)

`Proxy` carries the six hook slots and the scope.  `InScopeFunc` is wired to
`Scope.IsInScope` (as the assembly code does), so the scope field is a
`ScopeM`.  The upstream HTTP client is abstracted as a function
`Request → Option Response` (`none` = transport error, which `ServeHTTP`
turns into a 502). -/

/-- The hook slots and scope of `proxy.Proxy` as used by `ServeHTTP` and
`HandleConnect`. -/
structure ProxyM where
  requestInPipeline : List ReadOnlyHookReq
  requestModPipeline : List ModHookReq
  requestOutPipeline : List ReadOnlyHookReq
  responseInPipeline : List ReadOnlyHookResp
  responseModPipeline : List ModHookResp
  responseOutPipeline : List ReadOnlyHookResp
  scope : ScopeM

/-- How a pipeline run can fail inside `processRequestPipelines` /
`processResponsePipelines`:
* `hookErr` — a hook returned a Go error (`ServeHTTP` answers 500);
* `panicked` — the unconditional `Body.(*BodyWrapper).Reset()` type assertion
  (`proxy.go` lines 304 and 370) hit a body that is not a `*BodyWrapper`,
  which panics the handler goroutine. -/
inductive PipeErr where
  | hookErr : PipeErr
  | panicked : PipeErr
deriving DecidableEq, Repr

/-- The read-only fan-out inside `processRequestPipelines` (`proxy.go`
273–296 and 307–330): every hook gets its own clone of the current request;
the stage fails when any hook returns an error. -/
def roStageFailsReq (hooks : List ReadOnlyHookReq) (cur : Request) : Bool :=
  hooks.any (fun f => (f (cloneRequest cur).2).isSome)

/-- Response version of `roStageFailsReq` (`proxy.go` 339–362 and 373–396). -/
def roStageFailsResp (hooks : List ReadOnlyHookResp) (cur : Response) : Bool :=
  hooks.any (fun f => (f (cloneResponse cur).2).isSome)

/-- The sequential mutation loop inside `processRequestPipelines`
(`proxy.go` 298–305): apply each hook in slice order; stop with `hookErr`
when a hook errors; after each hook run `currentReq.Body.(*BodyWrapper).Reset()`,
which resets a wrapper body and panics on any other body. -/
def modLoopServeReq : List ModHookReq → Request → Except PipeErr Request
  | [], r => Except.ok r
  | fn :: rest, r =>
    match fn r with
    | Except.error _ => Except.error PipeErr.hookErr
    | Except.ok modified =>
      match modified.body with
      | Body.wrapper d _ => modLoopServeReq rest { modified with body := Body.wrapper d 0 }
      | _ => Except.error PipeErr.panicked

/-- Response version of `modLoopServeReq` (`proxy.go` 364–371). -/
def modLoopServeResp : List ModHookResp → Response → Except PipeErr Response
  | [], r => Except.ok r
  | fn :: rest, r =>
    match fn r with
    | Except.error _ => Except.error PipeErr.hookErr
    | Except.ok modified =>
      match modified.body with
      | Body.wrapper d _ => modLoopServeResp rest { modified with body := Body.wrapper d 0 }
      | _ => Except.error PipeErr.panicked

/-- `Proxy.processRequestPipelines` (`proxy.go` 268–333).  The first
component is the caller's request after the initial `cloneRequest` possibly
replaced its drained body (the Go function mutates `req` through that call);
the second is the pipeline outcome. -/
def processRequestPipelines (p : ProxyM) (req : Request) : Request × Except PipeErr Request :=
  let src := (cloneRequest req).1
  let cur := (cloneRequest req).2
  if roStageFailsReq p.requestInPipeline cur then (src, Except.error PipeErr.hookErr)
  else
    match modLoopServeReq p.requestModPipeline cur with
    | Except.error e => (src, Except.error e)
    | Except.ok cur' =>
      if roStageFailsReq p.requestOutPipeline cur' then (src, Except.error PipeErr.hookErr)
      else (src, Except.ok cur')

/-- `Proxy.processResponsePipelines` (`proxy.go` 335–399). -/
def processResponsePipelines (p : ProxyM) (resp : Response) : Response × Except PipeErr Response :=
  let src := (cloneResponse resp).1
  let cur := (cloneResponse resp).2
  if roStageFailsResp p.responseInPipeline cur then (src, Except.error PipeErr.hookErr)
  else
    match modLoopServeResp p.responseModPipeline cur with
    | Except.error e => (src, Except.error e)
    | Except.ok cur' =>
      if roStageFailsResp p.responseOutPipeline cur' then (src, Except.error PipeErr.hookErr)
      else (src, Except.ok cur')

/-- What `ServeHTTP` writes back to the HTTP client:
* `ok` — the forwarded response: its headers, status code and the body bytes
  copied by `io.Copy`;
* `err500` — `http.Error(..., StatusInternalServerError)` on a pipeline error;
* `err502` — `http.Error(..., StatusBadGateway)` on an upstream client error;
* `panicked` — the handler goroutine panicked (no HTTP answer). -/
inductive ServeOutcome where
  | ok (header : Headers) (statusCode : Nat) (bodyBytes : String) : ServeOutcome
  | err500 : ServeOutcome
  | err502 : ServeOutcome
  | panicked : ServeOutcome
deriving DecidableEq, Repr

/-- The observable effects of one `ServeHTTP` call: the request handed to the
upstream client (`Client.Do`), if that call was reached, and what was written
to the HTTP client. -/
structure ServeResult where
  sentUpstream : Option Request
  outcome : ServeOutcome
deriving DecidableEq, Repr

/-- The response side shared by both `ServeHTTP` branches (`proxy.go`
114–132): in scope, run the response pipelines (500 on hook error); out of
scope, forward a clone; then write headers, status and body. -/
def serveRespond (p : ProxyM) (sent : Request) (checkReq : Request) (resp : Response) : ServeResult :=
  if IsInScope p.scope checkReq then
    match (processResponsePipelines p resp).2 with
    | Except.error PipeErr.hookErr => { sentUpstream := some sent, outcome := ServeOutcome.err500 }
    | Except.error PipeErr.panicked => { sentUpstream := some sent, outcome := ServeOutcome.panicked }
    | Except.ok finalResp =>
      { sentUpstream := some sent
        outcome := ServeOutcome.ok finalResp.header finalResp.statusCode (readAllBody finalResp.body) }
  else
    let finalResp := (cloneResponse resp).2
    { sentUpstream := some sent
      outcome := ServeOutcome.ok finalResp.header finalResp.statusCode (readAllBody finalResp.body) }

/-- `Proxy.ServeHTTP` (`proxy.go` 82–133).  In scope, the request pipelines
run first (500 on hook error, before `Client.Do`); out of scope, the request
is forwarded as-is.  Either way `RequestURI` is cleared before dispatch, and
the second scope check re-reads the same (possibly mutated) request object:
in scope it sees the request whose body `cloneRequest` may have replaced; out
of scope it sees the request with its `RequestURI` already cleared. -/
def ServeHTTP (p : ProxyM) (upstream : Request → Option Response) (req : Request) : ServeResult :=
  if IsInScope p.scope req then
    match processRequestPipelines p req with
    | (_, Except.error PipeErr.hookErr) => { sentUpstream := none, outcome := ServeOutcome.err500 }
    | (_, Except.error PipeErr.panicked) => { sentUpstream := none, outcome := ServeOutcome.panicked }
    | (src, Except.ok finalReq) =>
      let fq := { finalReq with requestURI := "" }
      match upstream fq with
      | none => { sentUpstream := some fq, outcome := ServeOutcome.err502 }
      | some resp => serveRespond p fq src resp
  else
    let fq := { req with requestURI := "" }
    match upstream fq with
    | none => { sentUpstream := some fq, outcome := ServeOutcome.err502 }
    | some resp => serveRespond p fq fq resp

/-- The observable effects of one iteration of the CONNECT tunnel loop:
whether the iteration switched to WebSocket passthrough, the request written
to the upstream TLS stream, and the response content written back to the
client TLS stream (`none` when the tunnel was torn down first). -/
structure ConnectStep where
  passthrough : Bool
  sentUpstream : Option Request
  wroteClient : Option (Headers × Nat × String)
deriving Repr

/-- The response half of a tunnel iteration (`proxy.go` 240–263): read the
upstream response, run the response pipelines when the (possibly mutated)
request is in scope, else clone, then write the result to the client. -/
def connectRespond (p : ProxyM) (sent : Request) (checkReq : Request)
    (upstream : Request → Option Response) : ConnectStep :=
  match upstream sent with
  | none => { passthrough := false, sentUpstream := some sent, wroteClient := none }
  | some resp =>
    if IsInScope p.scope checkReq then
      match (processResponsePipelines p resp).2 with
      | Except.error _ => { passthrough := false, sentUpstream := some sent, wroteClient := none }
      | Except.ok finalResp =>
        { passthrough := false, sentUpstream := some sent
          wroteClient := some (finalResp.header, finalResp.statusCode, readAllBody finalResp.body) }
    else
      let finalResp := (cloneResponse resp).2
      { passthrough := false, sentUpstream := some sent
        wroteClient := some (finalResp.header, finalResp.statusCode, readAllBody finalResp.body) }

/-- One iteration of `Proxy.HandleConnect`'s keep-alive inner loop
(`proxy.go` 187–264), for an already-parsed request `httpReq`: a WebSocket
upgrade is written upstream verbatim and the loop switches to passthrough;
otherwise the request pipelines run only in scope (a pipeline error tears the
tunnel down before anything is sent), the final request is written upstream
unchanged (no request-target rewriting here), and the response is handled by
`connectRespond`. -/
def connectExchange (p : ProxyM) (upstream : Request → Option Response)
    (httpReq : Request) : ConnectStep :=
  if IsWebSocketRequest httpReq then
    { passthrough := true, sentUpstream := some httpReq, wroteClient := none }
  else if IsInScope p.scope httpReq then
    match processRequestPipelines p httpReq with
    | (_, Except.error _) => { passthrough := false, sentUpstream := none, wroteClient := none }
    | (src, Except.ok finalReq) => connectRespond p finalReq src upstream
  else
    connectRespond p httpReq httpReq upstream

/-! ## Pipeline assembly used with the queued read-only stages
(the `processRequestPipelines` of the `Proxy` variant built on
`readOnlyPipeline`/`modPipeline`): the return value of the read-only
`runPipeline` calls is discarded, so a full queue never fails the request. -/

/-- `processRequestPipelines` of the queued-pipeline proxy: enqueue into the
request-in stage (ignoring its error), run the mutation pipeline (its error
propagates), then enqueue into the request-out stage (ignoring its error).
Returns both updated stage queues and the mutation outcome. -/
def processRequestPipelinesQueued (roInHooks : List ReadOnlyHookReq)
    (roInQueue : List ROQueueItemReq) (modHooks : List ModHookReq)
    (roOutHooks : List ReadOnlyHookReq) (roOutQueue : List ROQueueItemReq)
    (req : Request) :
    List ROQueueItemReq × List ROQueueItemReq × Except String Request :=
  let cur := (cloneRequest req).2
  let q1 := (roRunPipeline roInHooks roInQueue cur).1
  match runPipelineModReq modHooks cur with
  | (_, some e) => (q1, roOutQueue, Except.error e)
  | (cur', none) =>
    let q2 := (roRunPipeline roOutHooks roOutQueue cur').1
    (q1, q2, Except.ok cur')

/-! ## Plugin mutation stage hooks (`internal/grpc/convert.go` 576–613 and
691–728)

A registered mutation client is modelled by: the state of its buffered
`originalRequests` channel (`queueFree` — whether the non-blocking send
succeeds), and `respond`, the modified message the serving goroutine would
push on `modifiedRequests` after relaying the sent message to the plugin
(`none` models a closed channel, i.e. a `nil` receive, which evicts the
client). -/

/-- A registered `request_mod` plugin client, as observed by
`Server.RequestModHook`. -/
structure ModClientReq where
  name : String
  queueFree : Bool
  respond : Request → Option Request

/-- A registered `response_mod` plugin client, as observed by
`Server.ResponseModHook`. -/
structure ModClientResp where
  name : String
  queueFree : Bool
  respond : Response → Option Response

/-- `Server.RequestModHook` (`convert.go` 576–613).  The loop walks the
registered clients: a full client queue evicts the client and continues; an
accepted send is followed by `r := <-client.modifiedRequests`, but that `:=`
declares a *new* variable shadowing the function's `r`, so the received
modified request is only used for the `nil` eviction check and the outer `r`
is never reassigned.  Every client is sent the outer `r`, and the function
finally executes `return r, nil` — the original request.  The model returns
the resulting request together with the names of the evicted clients. -/
def RequestModHook : List ModClientReq → Request → Request × List String
  | [], r => (r, [])
  | c :: rest, r =>
    if c.queueFree then
      match c.respond r with
      | none =>
        let tail := RequestModHook rest r
        (tail.1, c.name :: tail.2)
      | some _ => RequestModHook rest r
    else
      let tail := RequestModHook rest r
      (tail.1, c.name :: tail.2)

/-- `Server.ResponseModHook` (`convert.go` 691–728); the same shadowed
receive (`r := <-client.modifiedResponses`) discards every client's
modification. -/
def ResponseModHook : List ModClientResp → Response → Response × List String
  | [], r => (r, [])
  | c :: rest, r =>
    if c.queueFree then
      match c.respond r with
      | none =>
        let tail := ResponseModHook rest r
        (tail.1, c.name :: tail.2)
      | some _ => ResponseModHook rest r
    else
      let tail := ResponseModHook rest r
      (tail.1, c.name :: tail.2)

/-! ## Proto conversion (`internal/grpc/convert.go` 13–32) -/

/-- The proto `HttpRequest` message. -/
structure ProtoRequest where
  id : String
  method : String
  url : String
  headers : List (String × String)
  body : String
deriving DecidableEq, Repr

/-- Flatten a header map into `(name, value)` pairs, one per value, in
iteration order (Go map iteration order is unspecified; the model uses
insertion order). -/
def headerPairs : Headers → List (String × String)
  | [] => []
  | (k, vs) :: rest => vs.map (fun v => (k, v)) ++ headerPairs rest

/-- `req.URL.String()`, abstracted to authority followed by path and
optional query (no claim depends on the exact URL rendering). -/
def urlString (req : Request) : String :=
  req.urlHost ++ req.urlPath ++ (if req.urlQuery == "" then "" else "?" ++ req.urlQuery)

/-- `grpc.ToProtoRequest` (`convert.go` 13–32): id, method, URL, the header
map flattened to `(name, value)` pairs, and the body bytes.  No `Host`
header is synthesized.  (The Go function also swaps the drained body for a
fresh buffer over the same bytes; that replacement is byte-invisible and not
modelled.) -/
def ToProtoRequest (req : Request) : ProtoRequest :=
  { id := req.id
    method := req.method
    url := urlString req
    headers := headerPairs req.header
    body := readAllBody req.body }

/-! ## Raw HTTP/1.1 serialization (`hooks.RawRequestBytes`) -/

/-- CRLF. -/
def crlf : String := "\r\n"

/-- `req.URL.RequestURI()`: the path (defaulting to `/`) plus the optional
query string. -/
def requestTarget (req : Request) : String :=
  (if req.urlPath == "" then "/" else req.urlPath)
    ++ (if req.urlQuery == "" then "" else "?" ++ req.urlQuery)

/-- Render the `name: value` CRLF lines of one header entry. -/
def renderValues (k : String) : List String → String
  | [] => ""
  | v :: vs => k ++ ": " ++ v ++ crlf ++ renderValues k vs

/-- Render a header map as CRLF-separated lines, in iteration order (Go map
iteration order is unspecified; the model uses insertion order). -/
def renderHeaders : Headers → String
  | [] => ""
  | (k, vs) :: rest => renderValues k vs ++ renderHeaders rest

/-- `hooks.RawRequestBytes`: request line, headers, blank line, body.  When
the header map has no `Host` entry and a host is known (preferring `req.Host`
over the header), a `Host` header is set into the map before rendering. -/
def RawRequestBytes (req : Request) : String :=
  let line1 := req.method ++ " " ++ requestTarget req ++ " " ++ req.proto ++ crlf
  let host := if req.host == "" then hGet req.header "Host" else req.host
  let hdrs :=
    if host != "" && hGet req.header "Host" == "" then hSet req.header "Host" host
    else req.header
  line1 ++ renderHeaders hdrs ++ crlf ++ readAllBody req.body

/-! ## Certificate minting (`certs.GenerateCert` and `Proxy.generateCert`)

The cryptography is abstracted: the fresh RSA key pair is represented by its
bit size and a freshness tag supplied by the caller, the CA signature by the
issuer name, and the clock by `now` (in seconds). -/

/-- The leaf certificate attributes set by `certs.GenerateCert`'s template,
plus the identity (`keyTag`) of the generated private key. -/
structure LeafCert where
  commonName : String
  organization : List String
  dnsNames : List String
  notBefore : Nat
  notAfter : Nat
  keyUsageDigitalSignature : Bool
  keyUsageKeyEncipherment : Bool
  extKeyUsageServerAuth : Bool
  basicConstraintsValid : Bool
  issuer : String
  keyBits : Nat
  keyTag : Nat
deriving DecidableEq, Repr

/-- `certs.GenerateCert`: a fresh 2048-bit RSA key, an X.509 template with
`CN = hosts[0]`, `Organization = ["Proxy MITM"]`, `DNSNames = hosts`,
validity from `now` to `now + 365 days`, key usages digital-signature and
key-encipherment, EKU server-auth, signed by the Root CA.  An empty host
list would make the Go code panic on `hosts[0]`; the model returns `none`
(every caller passes a singleton). -/
def GenerateCert (hosts : List String) (rootCAName : String) (now keyTag : Nat) :
    Option LeafCert :=
  match hosts with
  | [] => none
  | h :: _ =>
    some { commonName := h
           organization := ["Proxy MITM"]
           dnsNames := hosts
           notBefore := now
           notAfter := now + 365 * 24 * 3600
           keyUsageDigitalSignature := true
           keyUsageKeyEncipherment := true
           extKeyUsageServerAuth := true
           basicConstraintsValid := true
           issuer := rootCAName
           keyBits := 2048
           keyTag := keyTag }

/-- Association-list lookup in the certificate cache (`p.CertCache[host]`). -/
def certCacheLookup : List (String × LeafCert) → String → Option LeafCert
  | [], _ => none
  | (h, c) :: rest, host => if h == host then some c else certCacheLookup rest host

/-- `Proxy.generateCert` (`proxy.go` 461–479): return the cached certificate
on a hit; otherwise generate a leaf for `[host]`, insert it under `host`, and
return it.  Returns the certificate and the updated cache (`none` only when
`GenerateCert` fails). -/
def generateCertCached (cache : List (String × LeafCert)) (host rootCAName : String)
    (now keyTag : Nat) : Option (LeafCert × List (String × LeafCert)) :=
  match certCacheLookup cache host with
  | some cert => some (cert, cache)
  | none =>
    match GenerateCert [host] rootCAName now keyTag with
    | none => none
    | some cert => some (cert, cache ++ [(host, cert)])

/-! ## Auxiliary predicates used by the theorems -/

/-- Is a body handle readable from the start?  A `nil` body trivially is; a
wrapper must have its cursor at zero; a bare stream handle is read as-is and
counted as readable (the reading most charitable to the specification). -/
def bodyCursorAtZero : Body → Bool
  | Body.nilBody => true
  | Body.wrapper _ p => p == 0
  | Body.stream _ => true

/-- A body as produced by the Go HTTP client / response parser: either `nil`,
a bare unread stream, or a wrapper whose cursor is still at zero. -/
def bodyFresh : Body → Bool
  | Body.wrapper _ p => p == 0
  | _ => true

/-- No entry of the header map uses the key `k`. -/
def keysFresh (k : String) (h : Headers) : Bool := h.all (fun kv => kv.1 != k)

/-- The header-map keys are pairwise distinct (always true of a Go map). -/
def headerKeysNodup : Headers → Bool
  | [] => true
  | (k, _) :: rest => keysFresh k rest && headerKeysNodup rest

/-- Install given `Upgrade` and `Connection` header values on a request. -/
def setUpgradeConnection (r : Request) (u c : String) : Request :=
  { r with header := hSet (hSet r.header "Upgrade" u) "Connection" c }

/-! ## Claim-side formalizations (these follow the specification's words, to
be compared against the definitions translated from the source) -/

/-- C3's host-match clause as the specification states it: the host is taken
preferring the `Host` header, else the URL authority, then **lowercased**,
then matched by the regex; an absent regex yields `true`; an empty host with
a regex present is out of scope. -/
def hostMatchesClaimC3 (s : ScopeM) (r : Request) : Bool :=
  match s.domainRe with
  | none => true
  | some re =>
    let h := if hGet r.header "Host" != "" then hGet r.header "Host" else r.urlHost
    let hl := asciiLower h
    if hl == "" then false else re hl

/-- C3's extension clause as the specification states it: the lowercased
final dot-suffix of the URL path must not be in the exclusion set; an empty
extension is always allowed. -/
def extAllowedClaimC3 (s : ScopeM) (r : Request) : Bool :=
  let ext := asciiLower (pathExt r.urlPath)
  ext == "" || !(s.excludedExtensions.contains ext)

/-- C3 as stated: `in_scope = host_matches ∧ extension_allowed` with the
clauses above. -/
def inScopeClaimC3 (s : ScopeM) (r : Request) : Bool :=
  hostMatchesClaimC3 s r && extAllowedClaimC3 s r

/-- C3's host-match clause as amended to the code's behavior: an absent
regex yields `true` outright; otherwise the host is taken from the message's
host field, else the `Host` header (the URL authority is not consulted), and
matched **as-is**, with no lowercasing; no host available yields `false`. -/
def hostMatchesAmendedC3 (s : ScopeM) (r : Request) : Bool :=
  match s.domainRe with
  | none => true
  | some re =>
    let h := if r.host != "" then r.host else hGet r.header "Host"
    if h == "" then false else re h

/-- C3 as amended: the same conjunction, with the corrected host clause. -/
def inScopeAmendedC3 (s : ScopeM) (r : Request) : Bool :=
  hostMatchesAmendedC3 s r && extAllowedClaimC3 s r

/-! ## Concrete fixtures for witnesses and counterexamples -/

/-- A plain in-scope GET request with no body. -/
def baseReq : Request :=
  { method := "GET", urlHost := "example.com", urlPath := "/", urlQuery := ""
    proto := "HTTP/1.1", host := "example.com", header := [], body := Body.nilBody
    contentLength := 0, requestURI := "/", id := "id-1" }

/-- A plain 200 response with an unread stream body `"ok"`. -/
def okResp : Response :=
  { statusCode := 200, proto := "HTTP/1.1", header := [("Content-Type", ["text/plain"])]
    body := Body.stream "ok", reqId := "id-1" }

/-- A `request_mod` plugin client that answers every request with the same
request plus the header `X-Plugin: 1`. -/
def c1PluginClient : ModClientReq :=
  { name := "plugin1", queueFree := true
    respond := fun q => some { q with header := hSet q.header "X-Plugin" "1" } }

/-- A mutation hook that always fails. -/
def c2ErrHook : ModHookReq := fun _ => Except.error "hook failed"

/-- A proxy whose only hook is the failing request mutation hook, with an
all-accepting scope. -/
def c2Proxy : ProxyM :=
  { requestInPipeline := [], requestModPipeline := [c2ErrHook], requestOutPipeline := []
    responseInPipeline := [], responseModPipeline := [], responseOutPipeline := []
    scope := ScopeNew none [] }

/-- An upstream that would answer every request with `okResp`. -/
def c2Upstream : Request → Option Response := fun _ => some okResp

/-- A host matcher that accepts exactly `example.com` (a compiled
`^example\.com$`). -/
def c3Matcher : String → Bool := fun h => h == "example.com"

/-- Scope built from `c3Matcher` with no excluded extensions. -/
def c3Scope : ScopeM := ScopeNew (some c3Matcher) []

/-- A request whose host is spelled `EXAMPLE.com` in every host source. -/
def c3Req : Request :=
  { baseReq with host := "EXAMPLE.com", urlHost := "EXAMPLE.com"
                 header := [("Host", ["EXAMPLE.com"])] }

/-- A request upgrading to `h2c`, not to WebSocket. -/
def c4ReqH2c : Request :=
  { baseReq with header := [("Upgrade", ["h2c"]), ("Connection", ["Upgrade"])] }

/-- A read-only hook that always succeeds. -/
def c5Hook : ReadOnlyHookReq := fun _ => none

/-- The singleton hook snapshot used in the C5 scenario. -/
def c5Hooks : List ReadOnlyHookReq := [c5Hook]

/-- One queued item for the C5 scenario. -/
def c5Item : ROQueueItemReq := { req := baseReq, hooks := c5Hooks }

/-- A scope whose regex matches no host at all: every request is out of
scope. -/
def c6Scope : ScopeM := ScopeNew (some (fun _ => false)) []

/-- A mutation hook that would add a visible marker header. -/
def c6MarkHook : ModHookReq := fun r => Except.ok { r with header := hSet r.header "X-M" "1" }

/-- A proxy with hooks in every slot but an all-rejecting scope. -/
def c6Proxy : ProxyM :=
  { requestInPipeline := [fun _ => none], requestModPipeline := [c6MarkHook]
    requestOutPipeline := [fun _ => none], responseInPipeline := [fun _ => none]
    responseModPipeline := [fun r => Except.ok r], responseOutPipeline := [fun _ => none]
    scope := c6Scope }

/-- The same proxy with all hook slots empty. -/
def c6ProxyBare : ProxyM :=
  { requestInPipeline := [], requestModPipeline := [], requestOutPipeline := []
    responseInPipeline := [], responseModPipeline := [], responseOutPipeline := []
    scope := c6Scope }

/-- An upstream that always answers `okResp`. -/
def c6Up : Request → Option Response := fun _ => some okResp

/-- A request whose wrapper body cursor is *not* at zero. -/
def c7Req : Request := { baseReq with body := Body.wrapper "ab" 1 }

/-- The identity mutation hook. -/
def c7IdHook : ModHookReq := fun r => Except.ok r

/-- The run of the mutation pipeline `[c7IdHook]` on `c7Req` ends here. -/
def c7Res : Request := { baseReq with body := Body.wrapper "ab" 0 }

/-- A request with one non-`Host` header and a non-empty host field. -/
def c9Req : Request := { baseReq with header := [("Accept", ["text"])] }

/-- A request carrying a partially-consumed stream body. -/
def c10Req : Request := { baseReq with body := Body.stream "abc" }

/-- A response carrying a partially-consumed stream body. -/
def c10Resp : Response := { okResp with body := Body.stream "xyz" }

/-! # Theorems -/

/-- The request returned by `RequestModHook` is always its input: the loop's
shadowed receive never updates the outer variable. -/
theorem requestModHook_fst : ∀ (cs : List ModClientReq) (r : Request),
    (RequestModHook cs r).1 = r
  | [], _ => rfl
  | c :: rest, r => by
    simp only [RequestModHook]
    split
    · split
      · simpa using requestModHook_fst rest r
      · exact requestModHook_fst rest r
    · simpa using requestModHook_fst rest r

/-- Response-side analogue of `requestModHook_fst`. -/
theorem responseModHook_fst : ∀ (cs : List ModClientResp) (s : Response),
    (ResponseModHook cs s).1 = s
  | [], _ => rfl
  | c :: rest, s => by
    simp only [ResponseModHook]
    split
    · split
      · simpa using responseModHook_fst rest s
      · exact responseModHook_fst rest s
    · simpa using responseModHook_fst rest s

/-- Claim C1 (code bug).  The plugin mutation stage hooks do **not** return
the message resulting from applying the registered clients' modifications:
because the modified message received from each client is bound to a fresh
shadowed variable, `RequestModHook` and `ResponseModHook` return their input
unchanged for every client list — in particular, with a registered client
that replies with the request plus `X-Plugin: 1`, the returned request does
not carry that header even though the client's reply does. -/
theorem c1_mod_hooks_discard_client_mutations :
    (∀ (cs : List ModClientReq) (r : Request), (RequestModHook cs r).1 = r)
    ∧ (∀ (cs : List ModClientResp) (s : Response), (ResponseModHook cs s).1 = s)
    ∧ hGet ((RequestModHook [c1PluginClient] baseReq).1).header "X-Plugin" = ""
    ∧ c1PluginClient.respond baseReq
        = some { baseReq with header := hSet baseReq.header "X-Plugin" "1" }
    ∧ hGet (hSet baseReq.header "X-Plugin" "1") "X-Plugin" = "1" := by
  refine ⟨requestModHook_fst, responseModHook_fst, ?_, rfl, rfl⟩
  rw [requestModHook_fst]
  rfl

/-- Claim C8 (confirmed).  `generateCert` returns the cached certificate on
a hit, leaving the cache unchanged; on a miss it generates a leaf with
`CN = host`, SAN exactly `{host}`, one-year validity from now, key usages
digital-signature and key-encipherment, EKU server-auth, a fresh 2048-bit
RSA key, signed by the Root CA, inserts it under `host`, and returns it. -/
theorem c8_generateCert_cache_and_leaf_shape
    (cache : List (String × LeafCert)) (host root : String) (now keyTag : Nat) :
    (∀ c, certCacheLookup cache host = some c →
        generateCertCached cache host root now keyTag = some (c, cache))
    ∧ (certCacheLookup cache host = none →
        ∃ c, generateCertCached cache host root now keyTag = some (c, cache ++ [(host, c)])
          ∧ c.commonName = host ∧ c.dnsNames = [host]
          ∧ c.notBefore = now ∧ c.notAfter = now + 365 * 24 * 3600
          ∧ c.keyUsageDigitalSignature = true ∧ c.keyUsageKeyEncipherment = true
          ∧ c.extKeyUsageServerAuth = true
          ∧ c.issuer = root ∧ c.keyBits = 2048 ∧ c.keyTag = keyTag) := by
  constructor
  · intro c hc
    simp [generateCertCached, hc]
  · intro hc
    refine ⟨{ commonName := host, organization := ["Proxy MITM"], dnsNames := [host]
              notBefore := now, notAfter := now + 365 * 24 * 3600
              keyUsageDigitalSignature := true, keyUsageKeyEncipherment := true
              extKeyUsageServerAuth := true, basicConstraintsValid := true
              issuer := root, keyBits := 2048, keyTag := keyTag },
            ?_, rfl, rfl, rfl, rfl, rfl, rfl, rfl, rfl, rfl, rfl⟩
    simp [generateCertCached, hc, GenerateCert]

/-- Witness for C8: a fresh cache misses, and the minted leaf has the stated
shape. -/
theorem c8_witness :
    ∃ c, generateCertCached [] "local.test" "proxy-root" 1700000000 7
          = some (c, [] ++ [("local.test", c)])
      ∧ c.commonName = "local.test" ∧ c.dnsNames = ["local.test"]
      ∧ c.notBefore = 1700000000 ∧ c.notAfter = 1700000000 + 365 * 24 * 3600
      ∧ c.keyUsageDigitalSignature = true ∧ c.keyUsageKeyEncipherment = true
      ∧ c.extKeyUsageServerAuth = true
      ∧ c.issuer = "proxy-root" ∧ c.keyBits = 2048 ∧ c.keyTag = 7 :=
  (c8_generateCert_cache_and_leaf_shape [] "local.test" "proxy-root" 1700000000 7).2 rfl

/-- Claim C10 (confirmed).  Cloning a message whose body is a bare stream
mutates the source: the remaining bytes are drained and the source's body
becomes a wrapper over them at cursor zero, while the clone gets a handle
over the same bytes with its own cursor at zero; cloning a wrapper body
leaves the source untouched and gives the clone a fresh cursor at zero over
the shared bytes; a nil body clones to a nil body with the source untouched. -/
theorem c10_clone_body_discipline :
    (∀ (req : Request) (d : String), req.body = Body.stream d →
        cloneRequest req = ({ req with body := Body.wrapper d 0 },
                            { req with body := Body.wrapper d 0 }))
    ∧ (∀ (req : Request) (d : String) (p : Nat), req.body = Body.wrapper d p →
        cloneRequest req = (req, { req with body := Body.wrapper d 0 }))
    ∧ (∀ req : Request, req.body = Body.nilBody → cloneRequest req = (req, req))
    ∧ (∀ (resp : Response) (d : String), resp.body = Body.stream d →
        cloneResponse resp = ({ resp with body := Body.wrapper d 0 },
                              { resp with body := Body.wrapper d 0 }))
    ∧ (∀ (resp : Response) (d : String) (p : Nat), resp.body = Body.wrapper d p →
        cloneResponse resp = (resp, { resp with body := Body.wrapper d 0 }))
    ∧ (∀ resp : Response, resp.body = Body.nilBody → cloneResponse resp = (resp, resp)) := by
  refine ⟨?_, ?_, ?_, ?_, ?_, ?_⟩
  · intro req d h
    simp [cloneRequest, h]
  · intro req d p h
    simp [cloneRequest, h]
  · intro req h
    simp [cloneRequest, h]
    cases req
    simp_all
  · intro resp d h
    simp [cloneResponse, h]
  · intro resp d p h
    simp [cloneResponse, h]
  · intro resp h
    simp [cloneResponse, h]
    cases resp
    simp_all

/-- Witness for C10: cloning the stream-bodied `c10Req` and `c10Resp`. -/
theorem c10_witness :
    cloneRequest c10Req = ({ c10Req with body := Body.wrapper "abc" 0 },
                           { c10Req with body := Body.wrapper "abc" 0 })
    ∧ cloneResponse c10Resp = ({ c10Resp with body := Body.wrapper "xyz" 0 },
                               { c10Resp with body := Body.wrapper "xyz" 0 }) :=
  ⟨c10_clone_body_discipline.1 c10Req "abc" rfl,
   c10_clone_body_discipline.2.2.2.1 c10Resp "xyz" rfl⟩

/-- Composing mutation pipeline runs: running a concatenated hook list is
running the first list and, if it succeeded, continuing with the second on
its result. -/
theorem runPipelineModReq_append (xs ys : List ModHookReq) (r : Request) :
    runPipelineModReq (xs ++ ys) r =
      match runPipelineModReq xs r with
      | (r1, none) => runPipelineModReq ys r1
      | (r1, some e) => (r1, some e) := by
  induction xs generalizing r with
  | nil => simp [runPipelineModReq]
  | cons f rest ih =>
    cases hf : f r with
    | error e => simp [runPipelineModReq, hf]
    | ok m => simp [runPipelineModReq, hf, ih (modStepReq m)]

/-- Response-side analogue of `runPipelineModReq_append`. -/
theorem runPipelineModResp_append (xs ys : List ModHookResp) (s : Response) :
    runPipelineModResp (xs ++ ys) s =
      match runPipelineModResp xs s with
      | (s1, none) => runPipelineModResp ys s1
      | (s1, some e) => (s1, some e) := by
  induction xs generalizing s with
  | nil => simp [runPipelineModResp]
  | cons f rest ih =>
    cases hf : f s with
    | error e => simp [runPipelineModResp, hf]
    | ok m => simp [runPipelineModResp, hf, ih (modStepResp m)]

/-- If the hooks before `f` succeed and `f` errors on the message they
produced, the whole `ServeHTTP` mutation loop fails with `hookErr`, whatever
hooks follow `f`. -/
theorem modLoopServeReq_error_at (pre : List ModHookReq) (f : ModHookReq)
    (suf : List ModHookReq) (r r1 : Request) (e : String)
    (hpre : modLoopServeReq pre r = Except.ok r1) (hf : f r1 = Except.error e) :
    modLoopServeReq (pre ++ f :: suf) r = Except.error PipeErr.hookErr := by
  induction pre generalizing r with
  | nil =>
    have hr : r = r1 := by simpa [modLoopServeReq] using hpre
    subst hr
    simp [modLoopServeReq, hf]
  | cons g rest ih =>
    simp only [List.cons_append, modLoopServeReq] at hpre ⊢
    cases hg : g r with
    | error e' => simp [hg] at hpre
    | ok m =>
      simp only [hg] at hpre ⊢
      cases hb : m.body with
      | wrapper d p =>
        simp only [hb] at hpre ⊢
        exact ih _ hpre
      | nilBody => simp [hb] at hpre
      | stream d => simp [hb] at hpre

/-- Claim C2 (confirmed).  Mutation hooks run sequentially in registration
order on the live message (a concatenated hook list composes); and when a
hook errors after its predecessors succeeded, `ServeHTTP` answers 500 and
never calls the upstream client, whatever hooks follow the failing one. -/
theorem c2_mutation_hooks_sequential_error_aborts :
    (∀ (xs ys : List ModHookReq) (r : Request),
        runPipelineModReq (xs ++ ys) r =
          match runPipelineModReq xs r with
          | (r1, none) => runPipelineModReq ys r1
          | (r1, some e) => (r1, some e))
    ∧ (∀ (xs ys : List ModHookResp) (s : Response),
        runPipelineModResp (xs ++ ys) s =
          match runPipelineModResp xs s with
          | (s1, none) => runPipelineModResp ys s1
          | (s1, some e) => (s1, some e))
    ∧ (∀ (p : ProxyM) (up : Request → Option Response) (pre : List ModHookReq)
        (f : ModHookReq) (suf : List ModHookReq) (req r1 : Request) (e : String),
        p.requestModPipeline = pre ++ f :: suf →
        IsInScope p.scope req = true →
        roStageFailsReq p.requestInPipeline (cloneRequest req).2 = false →
        modLoopServeReq pre (cloneRequest req).2 = Except.ok r1 →
        f r1 = Except.error e →
        ServeHTTP p up req = { sentUpstream := none, outcome := ServeOutcome.err500 }) := by
  refine ⟨runPipelineModReq_append, runPipelineModResp_append, ?_⟩
  intro p up pre f suf req r1 e hslots hscope hro hpre hf
  have hmod : modLoopServeReq p.requestModPipeline (cloneRequest req).2
      = Except.error PipeErr.hookErr := by
    rw [hslots]
    exact modLoopServeReq_error_at pre f suf _ r1 e hpre hf
  simp [ServeHTTP, hscope, processRequestPipelines, hro, hmod]

/-- Witness for C2: a proxy whose single mutation hook fails answers 500 and
does not dispatch upstream. -/
theorem c2_witness :
    ServeHTTP c2Proxy c2Upstream baseReq
      = { sentUpstream := none, outcome := ServeOutcome.err500 } :=
  c2_mutation_hooks_sequential_error_aborts.2.2 c2Proxy c2Upstream [] c2ErrHook []
    baseReq (cloneRequest baseReq).2 "hook failed" rfl (by decide) rfl rfl rfl

/-- Evaluating `Char.ofNat` at a valid code point. -/
theorem toNat_charOfNat_valid (n : Nat) (h : n.isValidChar) : (Char.ofNat n).toNat = n := by
  unfold Char.ofNat
  rw [dif_pos h]
  rfl

/-- ASCII lowercasing of a character is idempotent. -/
theorem asciiLowerChar_idem (c : Char) : asciiLowerChar (asciiLowerChar c) = asciiLowerChar c := by
  unfold asciiLowerChar
  by_cases h : 65 ≤ c.toNat ∧ c.toNat ≤ 90
  · rw [if_pos h]
    have hv : (c.toNat + 32).isValidChar := Or.inl (by omega)
    have ht : (Char.ofNat (c.toNat + 32)).toNat = c.toNat + 32 := toNat_charOfNat_valid _ hv
    rw [if_neg (by omega)]
  · rw [if_neg h, if_neg h]

/-- The extension clause of the code's scope predicate agrees with the
specification's extension clause. -/
theorem scope_ext_eq (s : ScopeM) (r : Request) :
    (!isExcludedExtension s r) = extAllowedClaimC3 s r := by
  unfold isExcludedExtension extAllowedClaimC3
  cases h : (asciiLower (pathExt r.urlPath) == "") <;> simp [h]

/-- The code's host clause agrees with the amended host clause. -/
theorem scope_domain_eq (s : ScopeM) (r : Request) :
    isIncludedDomain s r = hostMatchesAmendedC3 s r := by
  unfold isIncludedDomain hostMatchesAmendedC3
  cases s.domainRe with
  | none => rfl
  | some re =>
    have hh : hGet r.header "host" = hGet r.header "Host" := rfl
    cases hc : (r.host == "") <;> simp [hc, hh, bne]

/-- Counterexample to claim C3 as stated: with the compiled regex matching
exactly `example.com` and every host source spelled `EXAMPLE.com`, the code
reports the request out of scope (it does not lowercase the host before
matching), while the claim's lowercase-then-match semantics reports it in
scope. -/
theorem c3_counterexample :
    IsInScope c3Scope c3Req = false ∧ inScopeClaimC3 c3Scope c3Req = true := by
  constructor
  · rfl
  · rfl

/-- Claim C3 (amended).  `IsInScope` is the conjunction of the host-match
and extension clauses, where the host is taken from the message's host
field, else the `Host` header, and matched **without lowercasing** (an
absent regex accepts everything, even with no host available; with a regex
present and no host available the request is out of scope); and every stored
exclusion is a lowercase extension with a leading dot. -/
theorem c3_scope_amended_semantics :
    (∀ (s : ScopeM) (r : Request), IsInScope s r = inScopeAmendedC3 s r)
    ∧ (∀ (re : Option (String → Bool)) (exts : List String) (e : String),
        e ∈ (ScopeNew re exts).excludedExtensions →
        e.data.head? = some '.' ∧ asciiLower e = e) := by
  constructor
  · intro s r
    unfold IsInScope inScopeAmendedC3
    rw [scope_ext_eq, scope_domain_eq, Bool.and_comm]
  · intro re exts e he
    simp only [ScopeNew, List.mem_map] at he
    obtain ⟨x, _, hx⟩ := he
    subst hx
    constructor
    · simp [String.data_append]
    · show asciiLower ("." ++ asciiLower x) = "." ++ asciiLower x
      unfold asciiLower
      apply congrArg
      simp [String.data_append, asciiLowerChar_idem]
      rfl

/-- Witness for C3 (amended): the equivalence at a concrete scope and
request, and the stored form of the exclusion built from `"PNG"`. -/
theorem c3_witness :
    IsInScope c3Scope baseReq = inScopeAmendedC3 c3Scope baseReq
    ∧ (".png".data.head? = some '.' ∧ asciiLower ".png" = ".png") :=
  ⟨c3_scope_amended_semantics.1 c3Scope baseReq,
   c3_scope_amended_semantics.2 none ["PNG"] ".png" (by decide)⟩

/-- Looking up the key just set finds exactly the new single value. -/
theorem hLookup_hSetAux_self (h : Headers) (ck v : String) :
    hLookup (hSetAux h ck v) ck = some [v] := by
  induction h with
  | nil => simp [hSetAux, hLookup]
  | cons kv rest ih =>
    obtain ⟨k, vs⟩ := kv
    unfold hSetAux
    cases hk : (k == ck) <;> simp [hk, hLookup, ih]

/-- Setting one key leaves lookups of any other key unchanged. -/
theorem hLookup_hSetAux_other (h : Headers) (ck v k' : String) (hne : k' ≠ ck) :
    hLookup (hSetAux h ck v) k' = hLookup h k' := by
  induction h with
  | nil =>
    have : (ck == k') = false := by
      simpa using fun hc => hne (by simpa using hc.symm)
    simp [hSetAux, hLookup, this]
  | cons kv rest ih =>
    obtain ⟨k, vs⟩ := kv
    unfold hSetAux
    cases hk : (k == ck)
    · simp only [Bool.false_eq_true, if_false, hLookup]
      cases hk' : (k == k') <;> simp [hk', ih]
    · have hkck : k = ck := by simpa using hk
      have : (ck == k') = false := by
        simpa using fun hc => hne (by simpa using hc.symm)
      have hkk' : (k == k') = false := by rw [hkck]; exact this
      simp [hLookup, this, hkk']

/-- `Header.Get` after `Header.Set` of the same key returns the new value. -/
theorem hGet_hSet_self (h : Headers) (k v : String) : hGet (hSet h k v) k = v := by
  unfold hGet hSet
  rw [hLookup_hSetAux_self]

/-- `Header.Get` after `Header.Set` of a different key (different after
canonicalization) is unchanged. -/
theorem hGet_hSet_other (h : Headers) (k v k' : String)
    (hne : canonicalKey k' ≠ canonicalKey k) : hGet (hSet h k v) k' = hGet h k' := by
  unfold hGet hSet
  rw [hLookup_hSetAux_other _ _ _ _ hne]

/-- Claim C4 (confirmed).  The WebSocket detector returns `true` iff the
`Upgrade` header equals `websocket` under ASCII case folding and the
`Connection` header contains `upgrade` under ASCII case folding (`contains`
being substring containment, as `strings.Contains` implements); any other
upgrade target yields `false`; and the result is invariant under ASCII case
changes of the two header values. -/
theorem c4_websocket_detection :
    (∀ r : Request, IsWebSocketRequest r = true ↔
        (asciiLower (hGet r.header "Upgrade") = asciiLower "websocket"
         ∧ strContains (asciiLower (hGet r.header "Connection")) (asciiLower "upgrade") = true))
    ∧ (∀ r : Request, asciiLower (hGet r.header "Upgrade") ≠ "websocket" →
        IsWebSocketRequest r = false)
    ∧ (∀ (r : Request) (u u' c c' : String),
        asciiLower u = asciiLower u' → asciiLower c = asciiLower c' →
        IsWebSocketRequest (setUpgradeConnection r u c)
          = IsWebSocketRequest (setUpgradeConnection r u' c')) := by
  refine ⟨?_, ?_, ?_⟩
  · intro r
    have hws : asciiLower "websocket" = "websocket" := rfl
    have hup : asciiLower "upgrade" = "upgrade" := rfl
    rw [hws, hup]
    simp [IsWebSocketRequest, Bool.and_eq_true, beq_iff_eq]
  · intro r hne
    have : (asciiLower (hGet r.header "Upgrade") == "websocket") = false := by
      simpa using hne
    simp [IsWebSocketRequest, this]
  · intro r u u' c c' hu hc
    have hcu : canonicalKey "Upgrade" ≠ canonicalKey "Connection" := by decide
    have h1 : hGet (setUpgradeConnection r u c).header "Upgrade" = u := by
      unfold setUpgradeConnection
      rw [hGet_hSet_other _ _ _ _ hcu, hGet_hSet_self]
    have h2 : hGet (setUpgradeConnection r u c).header "Connection" = c := by
      unfold setUpgradeConnection
      rw [hGet_hSet_self]
    have h1' : hGet (setUpgradeConnection r u' c').header "Upgrade" = u' := by
      unfold setUpgradeConnection
      rw [hGet_hSet_other _ _ _ _ hcu, hGet_hSet_self]
    have h2' : hGet (setUpgradeConnection r u' c').header "Connection" = c' := by
      unfold setUpgradeConnection
      rw [hGet_hSet_self]
    simp only [IsWebSocketRequest, h1, h2, h1', h2', hu, hc]

/-- Witness for C4: case-folding invariance on concrete header values, and
an `h2c` upgrade is not detected as WebSocket. -/
theorem c4_witness :
    IsWebSocketRequest (setUpgradeConnection baseReq "WebSocket" "keep-alive, Upgrade")
      = IsWebSocketRequest (setUpgradeConnection baseReq "websocket" "keep-alive, upgrade")
    ∧ IsWebSocketRequest c4ReqH2c = false :=
  ⟨c4_websocket_detection.2.2 baseReq "WebSocket" "websocket"
      "keep-alive, Upgrade" "keep-alive, upgrade" rfl rfl,
   c4_websocket_detection.2.1 c4ReqH2c (by decide)⟩

/-- Counterexample to claim C5 as stated: the stage queue capacity is 1000,
not 1024 — with a non-empty hook list, enqueueing onto a queue holding 1000
items (fewer than 1024) already fails with the queue-full error. -/
theorem c5_counterexample :
    (List.replicate 1000 c5Item).length < 1024
    ∧ (roRunPipeline c5Hooks (List.replicate 1000 c5Item) baseReq).2
        = some "pipeline queue full" := by
  constructor
  · rw [List.length_replicate]
    norm_num
  · unfold roRunPipeline
    rw [List.length_replicate]
    norm_num [c5Hooks, roQueueCapacity]

/-- Claim C5 (amended).  Each read-only stage holds a bounded queue of
capacity **1000**; with a non-empty hook snapshot, enqueueing succeeds
exactly when fewer than 1000 items are queued (appending the item), and
otherwise returns the `"pipeline queue full"` error with the item dropped
(queue unchanged); and the mutation outcome of the surrounding request
pipeline run never depends on the read-only queue states — a full queue does
not fail the originating request. -/
theorem c5_readonly_queue_semantics :
    (∀ (hooks : List ReadOnlyHookReq) (q : List ROQueueItemReq) (r : Request),
        hooks ≠ [] →
        (((roRunPipeline hooks q r).2 = none ↔ q.length < roQueueCapacity)
         ∧ ((roRunPipeline hooks q r).2 = none →
              (roRunPipeline hooks q r).1 = q ++ [{ req := r, hooks := hooks }])
         ∧ ((roRunPipeline hooks q r).2 ≠ none →
              (roRunPipeline hooks q r).2 = some "pipeline queue full"
              ∧ (roRunPipeline hooks q r).1 = q)))
    ∧ (∀ (roInHooks : List ReadOnlyHookReq) (q q' : List ROQueueItemReq)
        (modHooks : List ModHookReq) (roOutHooks : List ReadOnlyHookReq)
        (qo qo' : List ROQueueItemReq) (req : Request),
        (processRequestPipelinesQueued roInHooks q modHooks roOutHooks qo req).2.2
          = (processRequestPipelinesQueued roInHooks q' modHooks roOutHooks qo' req).2.2) := by
  constructor
  · intro hooks q r hne
    have hlen : hooks.length > 0 := List.length_pos.mpr hne
    unfold roRunPipeline
    rw [if_pos hlen]
    by_cases hq : q.length < roQueueCapacity
    · simp [hq]
    · simp [hq]
  · intro roInHooks q q' modHooks roOutHooks qo qo' req
    rcases h : runPipelineModReq modHooks (cloneRequest req).2 with ⟨r', e⟩
    cases e <;> simp [processRequestPipelinesQueued, h]

/-- Witness for C5 (amended): enqueueing onto an empty queue with one hook
succeeds. -/
theorem c5_witness : (roRunPipeline c5Hooks [] baseReq).2 = none :=
  ((c5_readonly_queue_semantics.1 c5Hooks [] baseReq (List.cons_ne_nil _ _)).1).mpr
    (by decide)

/-- The scope predicate never reads the request-target field. -/
theorem isInScope_clearURI (s : ScopeM) (r : Request) :
    IsInScope s { r with requestURI := "" } = IsInScope s r := rfl

/-- `serveRespond` always records the request that was dispatched. -/
theorem serveRespond_sent (p : ProxyM) (sent checkReq : Request) (resp : Response) :
    (serveRespond p sent checkReq resp).sentUpstream = some sent := by
  unfold serveRespond
  split
  · split <;> rfl
  · rfl

/-- Out of scope, `serveRespond` writes the upstream response's own headers,
status and body bytes back to the client. -/
theorem serveRespond_outOfScope (p : ProxyM) (sent checkReq : Request) (resp : Response)
    (h : IsInScope p.scope checkReq = false) (hb : bodyFresh resp.body = true) :
    serveRespond p sent checkReq resp
      = { sentUpstream := some sent
          outcome := ServeOutcome.ok resp.header resp.statusCode (readAllBody resp.body) } := by
  unfold serveRespond
  cases hbody : resp.body with
  | nilBody => simp [h, cloneResponse, hbody, readAllBody]
  | stream d => simp [h, cloneResponse, hbody, readAllBody]
  | wrapper d pp =>
    have hp : pp = 0 := by simpa [bodyFresh, hbody] using hb
    subst hp
    simp [h, cloneResponse, hbody, readAllBody]

/-- Out of scope, `serveRespond` ignores every hook slot. -/
theorem serveRespond_scope_only (p q : ProxyM) (hpq : p.scope = q.scope)
    (sent checkReq : Request) (resp : Response) (h : IsInScope p.scope checkReq = false) :
    serveRespond p sent checkReq resp = serveRespond q sent checkReq resp := by
  unfold serveRespond
  rw [← hpq]
  simp [h]

/-- `connectRespond` always records the request written upstream. -/
theorem connectRespond_sent (p : ProxyM) (sent checkReq : Request)
    (up : Request → Option Response) :
    (connectRespond p sent checkReq up).sentUpstream = some sent := by
  unfold connectRespond
  split
  · rfl
  · split
    · split <;> rfl
    · rfl

/-- Out of scope, `connectRespond` writes the upstream response's own
content back to the client. -/
theorem connectRespond_outOfScope (p : ProxyM) (sent checkReq : Request)
    (up : Request → Option Response) (resp : Response)
    (h : IsInScope p.scope checkReq = false) (hu : up sent = some resp)
    (hb : bodyFresh resp.body = true) :
    connectRespond p sent checkReq up
      = { passthrough := false, sentUpstream := some sent
          wroteClient := some (resp.header, resp.statusCode, readAllBody resp.body) } := by
  unfold connectRespond
  rw [hu]
  cases hbody : resp.body with
  | nilBody => simp [h, cloneResponse, hbody, readAllBody]
  | stream d => simp [h, cloneResponse, hbody, readAllBody]
  | wrapper d pp =>
    have hp : pp = 0 := by simpa [bodyFresh, hbody] using hb
    subst hp
    simp [h, cloneResponse, hbody, readAllBody]

/-- Out of scope, `connectRespond` ignores every hook slot. -/
theorem connectRespond_scope_only (p q : ProxyM) (hpq : p.scope = q.scope)
    (sent checkReq : Request) (up : Request → Option Response)
    (h : IsInScope p.scope checkReq = false) :
    connectRespond p sent checkReq up = connectRespond q sent checkReq up := by
  unfold connectRespond
  rw [← hpq]
  rcases hu : up sent with _ | resp
  · rfl
  · simp [h]

/-- Claim C6 (confirmed).  For an out-of-scope request, no hook of any of
the six stages is consulted (the observable behavior of `ServeHTTP` and of a
CONNECT tunnel iteration is the same for any hook vectors over the same
scope); the request is forwarded upstream unchanged — exactly as received in
the tunnel, and with only the request-target form cleared in `ServeHTTP` —
and the response written back carries the upstream response's own headers,
status and body bytes. -/
theorem c6_out_of_scope_bypass :
    (∀ (p q : ProxyM) (up : Request → Option Response) (req : Request),
        p.scope = q.scope → IsInScope p.scope req = false →
        ServeHTTP p up req = ServeHTTP q up req)
    ∧ (∀ (p : ProxyM) (up : Request → Option Response) (req : Request),
        IsInScope p.scope req = false →
        (ServeHTTP p up req).sentUpstream = some { req with requestURI := "" })
    ∧ (∀ (p : ProxyM) (up : Request → Option Response) (req : Request) (resp : Response),
        IsInScope p.scope req = false →
        up { req with requestURI := "" } = some resp → bodyFresh resp.body = true →
        (ServeHTTP p up req).outcome
          = ServeOutcome.ok resp.header resp.statusCode (readAllBody resp.body))
    ∧ (∀ (p q : ProxyM) (up : Request → Option Response) (req : Request),
        p.scope = q.scope → IsWebSocketRequest req = false → IsInScope p.scope req = false →
        connectExchange p up req = connectExchange q up req)
    ∧ (∀ (p : ProxyM) (up : Request → Option Response) (req : Request),
        IsWebSocketRequest req = false → IsInScope p.scope req = false →
        (connectExchange p up req).sentUpstream = some req)
    ∧ (∀ (p : ProxyM) (up : Request → Option Response) (req : Request) (resp : Response),
        IsWebSocketRequest req = false → IsInScope p.scope req = false →
        up req = some resp → bodyFresh resp.body = true →
        (connectExchange p up req).wroteClient
          = some (resp.header, resp.statusCode, readAllBody resp.body)) := by
  refine ⟨?_, ?_, ?_, ?_, ?_, ?_⟩
  · intro p q up req hpq h
    have hfq : IsInScope p.scope { req with requestURI := "" } = false := by
      rw [isInScope_clearURI]; exact h
    unfold ServeHTTP
    rw [← hpq]
    simp only [h, Bool.false_eq_true, if_false]
    rcases hu : up { req with requestURI := "" } with _ | resp
    · simp [hu]
    · simp [hu]
      exact serveRespond_scope_only p q hpq _ _ resp hfq
  · intro p up req h
    unfold ServeHTTP
    simp only [h, Bool.false_eq_true, if_false]
    rcases hu : up { req with requestURI := "" } with _ | resp
    · simp [hu]
    · simp [hu, serveRespond_sent]
  · intro p up req resp h hu hb
    have hfq : IsInScope p.scope { req with requestURI := "" } = false := by
      rw [isInScope_clearURI]; exact h
    unfold ServeHTTP
    simp only [h, Bool.false_eq_true, if_false]
    simp only [hu]
    rw [serveRespond_outOfScope p _ _ resp hfq hb]
  · intro p q up req hpq hws h
    unfold connectExchange
    rw [← hpq]
    simp only [hws, Bool.false_eq_true, if_false, h]
    exact connectRespond_scope_only p q hpq _ _ up h
  · intro p up req hws h
    unfold connectExchange
    simp only [hws, Bool.false_eq_true, if_false, h]
    exact connectRespond_sent p _ _ up
  · intro p up req resp hws h hu hb
    unfold connectExchange
    simp only [hws, Bool.false_eq_true, if_false, h]
    rw [connectRespond_outOfScope p _ _ up resp h hu hb]

/-- Witness for C6: the all-rejecting scope lets a marked-up proxy and a
hook-free proxy behave identically; the request goes upstream with only its
request-target cleared; the tunnel writes back the upstream response. -/
theorem c6_witness :
    ServeHTTP c6Proxy c6Up baseReq = ServeHTTP c6ProxyBare c6Up baseReq
    ∧ (ServeHTTP c6Proxy c6Up baseReq).sentUpstream = some { baseReq with requestURI := "" }
    ∧ (connectExchange c6Proxy c6Up baseReq).wroteClient
        = some (okResp.header, okResp.statusCode, readAllBody okResp.body) :=
  ⟨c6_out_of_scope_bypass.1 c6Proxy c6ProxyBare c6Up baseReq rfl (by decide),
   c6_out_of_scope_bypass.2.1 c6Proxy c6Up baseReq (by decide),
   c6_out_of_scope_bypass.2.2.2.2.2 c6Proxy c6Up baseReq okResp (by decide) (by decide)
     rfl (by decide)⟩

/-- The per-hook body step always leaves the cursor at zero: a wrapper is
reset, anything else is cloned into a fresh handle. -/
theorem modStepReq_cursorZero (r : Request) : bodyCursorAtZero (modStepReq r).body = true := by
  cases hb : r.body with
  | nilBody => simp [modStepReq, hb, cloneRequest, bodyCursorAtZero]
  | wrapper d p => simp [modStepReq, hb, bodyCursorAtZero]
  | stream d => simp [modStepReq, hb, cloneRequest, bodyCursorAtZero]

/-- Response-side analogue of `modStepReq_cursorZero`. -/
theorem modStepResp_cursorZero (s : Response) :
    bodyCursorAtZero (modStepResp s).body = true := by
  cases hb : s.body with
  | nilBody => simp [modStepResp, hb, cloneResponse, bodyCursorAtZero]
  | wrapper d p => simp [modStepResp, hb, bodyCursorAtZero]
  | stream d => simp [modStepResp, hb, cloneResponse, bodyCursorAtZero]

/-- A successful mutation run keeps a zero cursor once established. -/
theorem runPipelineModReq_preserves_zero : ∀ (hooks : List ModHookReq) (r res : Request),
    bodyCursorAtZero r.body = true → runPipelineModReq hooks r = (res, none) →
    bodyCursorAtZero res.body = true
  | [], r, res, hz, heq => by
    simp only [runPipelineModReq] at heq
    injection heq with h1 h2
    subst h1
    exact hz
  | f :: rest, r, res, hz, heq => by
    simp only [runPipelineModReq] at heq
    cases hf : f r with
    | error e => simp [hf] at heq
    | ok m =>
      simp only [hf] at heq
      exact runPipelineModReq_preserves_zero rest _ res (modStepReq_cursorZero m) heq

/-- Response-side analogue of `runPipelineModReq_preserves_zero`. -/
theorem runPipelineModResp_preserves_zero : ∀ (hooks : List ModHookResp) (s res : Response),
    bodyCursorAtZero s.body = true → runPipelineModResp hooks s = (res, none) →
    bodyCursorAtZero res.body = true
  | [], s, res, hz, heq => by
    simp only [runPipelineModResp] at heq
    injection heq with h1 h2
    subst h1
    exact hz
  | f :: rest, s, res, hz, heq => by
    simp only [runPipelineModResp] at heq
    cases hf : f s with
    | error e => simp [hf] at heq
    | ok m =>
      simp only [hf] at heq
      exact runPipelineModResp_preserves_zero rest _ res (modStepResp_cursorZero m) heq

/-- Counterexample to claim C7 as stated: a mutation pipeline run with an
empty hook list returns the message untouched, so a body whose wrapper
cursor is not at zero comes back unchanged even though the run "returned
successfully". -/
theorem c7_counterexample :
    (runPipelineModReq [] c7Req).2 = none
    ∧ bodyCursorAtZero (runPipelineModReq [] c7Req).1.body = false :=
  ⟨rfl, rfl⟩

/-- Claim C7 (amended).  After a mutation pipeline run that applied **at
least one** hook returns successfully, the resulting message's body is
readable from position zero — after each hook the engine either resets the
wrapper cursor or clones the message onto a fresh cursor at zero (a run with
no hooks returns the message as-is). -/
theorem c7_mod_pipeline_body_at_zero :
    (∀ (hooks : List ModHookReq) (r res : Request), hooks ≠ [] →
        runPipelineModReq hooks r = (res, none) → bodyCursorAtZero res.body = true)
    ∧ (∀ (hooks : List ModHookResp) (s res : Response), hooks ≠ [] →
        runPipelineModResp hooks s = (res, none) → bodyCursorAtZero res.body = true)
    ∧ (∀ r : Request, bodyCursorAtZero (modStepReq r).body = true)
    ∧ (∀ s : Response, bodyCursorAtZero (modStepResp s).body = true) := by
  refine ⟨?_, ?_, modStepReq_cursorZero, modStepResp_cursorZero⟩
  · intro hooks r res hne heq
    cases hooks with
    | nil => exact absurd rfl hne
    | cons f rest =>
      simp only [runPipelineModReq] at heq
      cases hf : f r with
      | error e => simp [hf] at heq
      | ok m =>
        simp only [hf] at heq
        exact runPipelineModReq_preserves_zero rest _ res (modStepReq_cursorZero m) heq
  · intro hooks s res hne heq
    cases hooks with
    | nil => exact absurd rfl hne
    | cons f rest =>
      simp only [runPipelineModResp] at heq
      cases hf : f s with
      | error e => simp [hf] at heq
      | ok m =>
        simp only [hf] at heq
        exact runPipelineModResp_preserves_zero rest _ res (modStepResp_cursorZero m) heq

/-- Witness for C7 (amended): one identity hook over a mid-cursor body ends
with the cursor reset to zero. -/
theorem c7_witness : bodyCursorAtZero c7Res.body = true :=
  c7_mod_pipeline_body_at_zero.1 [c7IdHook] c7Req c7Res (List.cons_ne_nil _ _) rfl

/-- The entry just set is present in the map. -/
theorem hSetAux_mem_self (h : Headers) (ck v : String) : (ck, [v]) ∈ hSetAux h ck v := by
  induction h with
  | nil => simp [hSetAux]
  | cons kv rest ih =>
    obtain ⟨k, vs⟩ := kv
    unfold hSetAux
    cases hk : (k == ck)
    · simp [ih]
    · simp

/-- Rendering a header map that holds the single-valued entry `(k, [v])`
produces the line `k: v` somewhere in the output. -/
theorem renderHeaders_mem (h : Headers) (k v : String) (hmem : (k, [v]) ∈ h) :
    ∃ pre post : List Char,
      (renderHeaders h).data = pre ++ (k ++ ": " ++ v ++ crlf).data ++ post := by
  induction h with
  | nil => simp at hmem
  | cons kv rest ih =>
    rcases List.mem_cons.mp hmem with heq | htail
    · subst heq
      refine ⟨[], (renderHeaders rest).data, ?_⟩
      simp [renderHeaders, renderValues, String.data_append, List.append_assoc]
    · obtain ⟨pre, post, hp⟩ := ih htail
      obtain ⟨k', vs'⟩ := kv
      refine ⟨(renderValues k' vs').data ++ pre, post, ?_⟩
      simp [renderHeaders, String.data_append, hp, List.append_assoc]

/-- If no entry uses the key, the lookup misses. -/
theorem keysFresh_hLookup_none (h : Headers) (k : String) (hf : keysFresh k h = true) :
    hLookup h k = none := by
  induction h with
  | nil => rfl
  | cons kv rest ih =>
    obtain ⟨k', vs'⟩ := kv
    simp only [keysFresh, List.all_cons, Bool.and_eq_true] at hf
    obtain ⟨h1, h2⟩ := hf
    have hke : (k' == k) = false := by
      cases hbe : (k' == k)
      · rfl
      · exfalso
        simp [bne, hbe] at h1
    simp only [hLookup, hke, Bool.false_eq_true, if_false]
    exact ih h2

/-- A missing key contributes no `(name, value)` pair. -/
theorem headerPairs_filter_nil (h : Headers) (k : String) (hnone : hLookup h k = none) :
    (headerPairs h).filter (fun kv => kv.1 == k) = [] := by
  induction h with
  | nil => rfl
  | cons kv rest ih =>
    obtain ⟨k', vs'⟩ := kv
    simp only [hLookup] at hnone
    cases hk : (k' == k)
    · rw [hk] at hnone
      simp only [Bool.false_eq_true, if_false] at hnone
      have hmap : (vs'.map (fun v => (k', v))).filter (fun kv => kv.1 == k) = [] := by
        refine List.filter_eq_nil_iff.mpr ?_
        intro x hx
        obtain ⟨v, hv, rfl⟩ := List.mem_map.mp hx
        simp [hk]
      simp [headerPairs, List.filter_append, hmap, ih hnone]
    · rw [hk] at hnone
      simp at hnone

/-- With pairwise-distinct keys, the flattened `(name, value)` pairs carry
exactly the stored value list of each key, in order. -/
theorem headerPairs_filter_map (h : Headers) (k : String) (vs : List String)
    (hnd : headerKeysNodup h = true) (hl : hLookup h k = some vs) :
    (((headerPairs h).filter (fun kv => kv.1 == k)).map (fun kv => kv.2)) = vs := by
  induction h with
  | nil => simp [hLookup] at hl
  | cons kv rest ih =>
    obtain ⟨k', vs'⟩ := kv
    simp only [headerKeysNodup, Bool.and_eq_true] at hnd
    obtain ⟨hfresh, hndr⟩ := hnd
    simp only [hLookup] at hl
    cases hk : (k' == k)
    · rw [hk] at hl
      simp only [Bool.false_eq_true, if_false] at hl
      have hmap : (vs'.map (fun v => (k', v))).filter (fun kv => kv.1 == k) = [] := by
        refine List.filter_eq_nil_iff.mpr ?_
        intro x hx
        obtain ⟨v, hv, rfl⟩ := List.mem_map.mp hx
        simp [hk]
      simp [headerPairs, List.filter_append, hmap]
      exact ih hndr hl
    · rw [hk] at hl
      simp only [if_true] at hl
      injection hl with hvs
      subst hvs
      have hkk : k' = k := by simpa using hk
      subst hkk
      have hmap : (vs'.map (fun v => (k', v))).filter (fun kv => kv.1 == k')
          = vs'.map (fun v => (k', v)) := by
        refine List.filter_eq_self.mpr ?_
        intro x hx
        obtain ⟨v, hv, rfl⟩ := List.mem_map.mp hx
        simp
      have hnil : (headerPairs rest).filter (fun kv => kv.1 == k') = [] :=
        headerPairs_filter_nil rest k' (keysFresh_hLookup_none rest k' hfresh)
      simp [headerPairs, List.filter_append, hmap, hnil, List.map_map, Function.comp]

/-- Counterexample to claim C9 as stated: for a request whose header map
lacks `Host` but whose host field is `example.com`, the RPC conversion
(`ToProtoRequest`) emits only the existing header pairs — no `Host` pair is
synthesized, so not every outgoing serialization carries one. -/
theorem c9_counterexample :
    hLookup c9Req.header "Host" = none
    ∧ c9Req.host = "example.com"
    ∧ (ToProtoRequest c9Req).headers = [("Accept", "text")]
    ∧ ((ToProtoRequest c9Req).headers.any (fun kv => kv.1 == "Host")) = false :=
  ⟨rfl, rfl, rfl, rfl⟩

/-- Claim C9 (amended).  For a request whose header map lacks `Host` and
whose host field is non-empty, the raw HTTP/1.1 wire rendering synthesizes a
`Host` header from the host field; the RPC `HttpRequest` conversion instead
serializes exactly the header map's `(name, value)` pairs — preserving each
name's value multiplicity and order — and synthesizes no `Host` pair. -/
theorem c9_host_serialization_amended :
    (∀ req : Request, hLookup req.header "Host" = none → req.host ≠ "" →
        ∃ pre post : List Char,
          (RawRequestBytes req).data
            = pre ++ ("Host" ++ ": " ++ req.host ++ crlf).data ++ post)
    ∧ (∀ req : Request, hLookup req.header "Host" = none →
        ((ToProtoRequest req).headers.any (fun kv => kv.1 == "Host")) = false)
    ∧ (∀ (req : Request) (k : String) (vs : List String),
        headerKeysNodup req.header = true → hLookup req.header k = some vs →
        (((ToProtoRequest req).headers.filter (fun kv => kv.1 == k)).map (fun kv => kv.2))
          = vs) := by
  refine ⟨?_, ?_, ?_⟩
  · intro req hnone hhost
    have hck : canonicalKey "Host" = "Host" := rfl
    have hget : hGet req.header "Host" = "" := by
      unfold hGet
      rw [hck, hnone]
    have hh : (req.host == "") = false := by simpa using hhost
    have hmem : ("Host", [req.host]) ∈ hSet req.header "Host" req.host := by
      unfold hSet
      rw [hck]
      exact hSetAux_mem_self _ _ _
    obtain ⟨pre0, post0, hR⟩ :=
      renderHeaders_mem (hSet req.header "Host" req.host) "Host" req.host hmem
    refine ⟨(req.method ++ " " ++ requestTarget req ++ " " ++ req.proto ++ crlf).data ++ pre0,
            post0 ++ crlf.data ++ (readAllBody req.body).data, ?_⟩
    simp only [RawRequestBytes, hh, Bool.false_eq_true, if_false, hget, bne]
    simp [String.data_append, hR, List.append_assoc]
  · intro req hnone
    refine List.any_eq_false.mpr ?_
    intro x hx
    intro hpx
    have hxin : x ∈ (headerPairs req.header).filter (fun kv => kv.1 == "Host") :=
      List.mem_filter.mpr ⟨by simpa [ToProtoRequest] using hx, hpx⟩
    rw [headerPairs_filter_nil req.header "Host" hnone] at hxin
    exact absurd hxin (List.not_mem_nil x)
  · intro req k vs hnd hl
    simpa [ToProtoRequest] using headerPairs_filter_map req.header k vs hnd hl

/-- Witness for C9 (amended): the raw rendering of `c9Req` contains the
synthesized `Host: example.com` line. -/
theorem c9_witness :
    ∃ pre post : List Char,
      (RawRequestBytes c9Req).data
        = pre ++ ("Host" ++ ": " ++ c9Req.host ++ crlf).data ++ post :=
  c9_host_serialization_amended.1 c9Req rfl (by decide)

end EfinProxy
